import Mathlib

/-!
Verification of the `skill_manager` core of this repository
(`src/tskill/src/skill_manager/manager.py` and `models.py`).

The filesystem is modelled as a finite tree of named nodes: real directories,
regular files (with a readability flag standing for `OSError`/`UnicodeDecodeError`
on `read_text`), and symbolic links carrying an absolute destination path.
Paths are lists of components.  Symlink resolution follows the OS semantics
used by `pathlib` (`Path.exists`, `Path.is_dir` and `Path.resolve` follow
links; `Path.is_symlink` and `os.symlink` do not), with a hop budget standing
for the kernel's `MAXSYMLINKS` limit (`ELOOP`).

Each method of `SkillManager` is translated directly from the Python source;
`re.search` calls are modelled by functions whose doc comments spell out the
semantics of the concrete regular expression they translate.
-/

set_option maxHeartbeats 1000000

namespace SkillMgr

/-- An absolute filesystem path, as its list of components. -/
abbrev FPath := List String

/-- A filesystem node: a real directory with named children, a regular file
(`readable := false` stands for a file whose `read_text` raises
`OSError`/`UnicodeDecodeError`), or a symbolic link to an absolute path. -/
inductive Node where
  | dir (children : List (String × Node))
  | file (content : String) (readable : Bool)
  | symlink (dest : FPath)

/-- A filesystem: the children of the root directory. -/
abbrev FS := List (String × Node)

/-- Look up a directory entry by name (directory entries have unique names). -/
def childNamed : List (String × Node) → String → Option Node
  | [], _ => none
  | e :: rest, c => if e.1 == c then some e.2 else childNamed rest c

/-- Remove the entry named `c` from a directory's child list. -/
def removeChildren (ch : List (String × Node)) (c : String) : List (String × Node) :=
  ch.filter (fun e => !(e.1 == c))

/-- Replace in place (or append) the entry named `c` in a directory's child
list. -/
def setChildren : List (String × Node) → String → Node → List (String × Node)
  | [], c, n => [(c, n)]
  | e :: rest, c, n => if e.1 == c then (c, n) :: rest else e :: setChildren rest c n

/-- Purely structural lookup: descend through real directories only, never
following symbolic links.  Used on canonical (symlink-free) paths. -/
def nodeAtRealGo : Node → FPath → Option Node
  | n, [] => some n
  | .dir ch, c :: rest =>
    match childNamed ch c with
    | some child => nodeAtRealGo child rest
    | none => none
  | .file _ _, _ :: _ => none
  | .symlink _, _ :: _ => none

/-- Structural lookup from the root. -/
def nodeAtReal (fs : FS) (p : FPath) : Option Node :=
  nodeAtRealGo (.dir fs) p

/-- The kernel's bound on symbolic-link hops during resolution (`ELOOP`).
The budget is also spent on ordinary components; modelled paths are far
shorter than it, so only symlink cycles can exhaust it. -/
def maxSymlinks : Nat := 64

/-- Resolution of a path to its canonical form, as `Path.resolve(strict=False)`
does: components are processed left to right, a symlink restarts resolution at
its (absolute) destination, and once a component is missing the remainder is
appended unchecked.  `none` models `OSError` (`ELOOP`) on a symlink cycle. -/
def resolveAux (fs : FS) : Nat → FPath → FPath → Option FPath
  | 0, _, _ => none
  | _ + 1, done, [] => some done
  | fuel + 1, done, c :: rest =>
    match nodeAtReal fs (done ++ [c]) with
    | some (.symlink d) => resolveAux fs fuel [] (d ++ rest)
    | some _ => resolveAux fs fuel (done ++ [c]) rest
    | none => some (done ++ [c] ++ rest)

/-- `Path.resolve()`: canonicalize a path, `none` on a resolution error. -/
def resolvePath (fs : FS) (p : FPath) : Option FPath :=
  resolveAux fs maxSymlinks [] p

/-- `os.stat`: the node a path refers to after following symbolic links. -/
def statNode (fs : FS) (p : FPath) : Option Node :=
  match resolvePath fs p with
  | some rp => nodeAtReal fs rp
  | none => none

/-- The resolved parent directory path of `p` paired with its final component:
where entry-level operations (`lstat`, `unlink`, `symlink`, …) act. -/
def entryLoc (fs : FS) (p : FPath) : Option (FPath × String) :=
  match p.getLast? with
  | none => none
  | some last =>
    match resolveAux fs maxSymlinks [] p.dropLast with
    | some rq => some (rq, last)
    | none => none

/-- `os.lstat`: the node at a path without following a final symbolic link
(symlinks in parent components are followed). -/
def lstatNode (fs : FS) (p : FPath) : Option Node :=
  match entryLoc fs p with
  | some (rq, last) => nodeAtReal fs (rq ++ [last])
  | none => none

/-- `Path.exists()`: follows symlinks; a dangling link does not exist;
resolution errors are swallowed and yield `false`. -/
def pathExists (fs : FS) (p : FPath) : Bool :=
  (statNode fs p).isSome

/-- `Path.is_dir()`: follows symlinks; errors yield `false`. -/
def isDir (fs : FS) (p : FPath) : Bool :=
  match statNode fs p with
  | some (.dir _) => true
  | _ => false

/-- `Path.is_symlink()`: true iff the entry itself is a symbolic link. -/
def isSymlink (fs : FS) (p : FPath) : Bool :=
  match lstatNode fs p with
  | some (.symlink _) => true
  | _ => false

/-- `Path.read_text()`: the content of a readable regular file; `none`
models the `OSError`/`UnicodeDecodeError` cases (missing file, directory,
unreadable or undecodable file). -/
def readText (fs : FS) (p : FPath) : Option String :=
  match statNode fs p with
  | some (.file content true) => some content
  | _ => none

/-- `Path.iterdir()`: the entries of a directory.  The manager only calls it
on its two root directories, which exist as directories in every modelled
state; the `[]` fallback (a `NotADirectoryError` in Python) is unreachable
there. -/
def iterdir (fs : FS) (p : FPath) : List (String × Node) :=
  match statNode fs p with
  | some (.dir ch) => ch
  | _ => []

/-- Structural update: replace the node at `p` (creating it under its parent
if absent).  Only called with canonical parent paths. -/
def setNode : Node → FPath → Node → Node
  | _, [], n' => n'
  | .dir ch, c :: rest, n' =>
    match childNamed ch c with
    | some child => .dir (setChildren ch c (setNode child rest n'))
    | none => .dir (setChildren ch c (setNode (.dir []) rest n'))
  | n, _ :: _, _ => n

/-- Structural update from the root. -/
def setAtReal (fs : FS) (p : FPath) (n : Node) : FS :=
  match setNode (.dir fs) p n with
  | .dir ch => ch
  | _ => fs

/-- Structural removal of the entry at `p`. -/
def remNode : Node → FPath → Node
  | .dir ch, c :: [] => .dir (removeChildren ch c)
  | .dir ch, c :: r :: rest =>
    .dir (ch.map fun e => if e.1 == c then (e.1, remNode e.2 (r :: rest)) else e)
  | n, _ => n

/-- Structural removal from the root. -/
def removeAtReal (fs : FS) (p : FPath) : FS :=
  match remNode (.dir fs) p with
  | .dir ch => ch
  | _ => fs

/-- A Python exception escaping a `SkillManager` method. -/
inductive PyErr where
  | fileNotFound (msg : String)
  | fileExists
  | osError (msg : String)
deriving DecidableEq

/-- `Path.unlink()`: removes a file or a symbolic link; a directory raises
`IsADirectoryError`, a missing entry raises `FileNotFoundError`. -/
def unlinkEntry (fs : FS) (p : FPath) : Except PyErr FS :=
  match entryLoc fs p with
  | none => .error (.fileNotFound "unlink")
  | some (rq, last) =>
    match nodeAtReal fs (rq ++ [last]) with
    | none => .error (.fileNotFound "unlink")
    | some (.dir _) => .error (.osError "IsADirectoryError")
    | some _ => .ok (removeAtReal fs (rq ++ [last]))

/-- `shutil.rmtree(path)`: removes a directory tree; refuses a symbolic link
(raising `OSError("Cannot call rmtree on a symbolic link")`) before deleting
anything. -/
def rmtree (fs : FS) (p : FPath) : Except PyErr FS :=
  match entryLoc fs p with
  | none => .error (.fileNotFound "rmtree")
  | some (rq, last) =>
    match nodeAtReal fs (rq ++ [last]) with
    | some (.symlink _) => .error (.osError "Cannot call rmtree on a symbolic link")
    | some (.dir _) => .ok (removeAtReal fs (rq ++ [last]))
    | some (.file _ _) => .error (.osError "NotADirectoryError")
    | none => .error (.fileNotFound "rmtree")

/-- `os.symlink(src, dst)`: creates a symbolic link at `dst` pointing at
`src`; fails with `FileExistsError` if any entry (even a dangling link)
already occupies `dst`, and with `FileNotFoundError` if the parent of `dst`
is not an existing directory. -/
def osSymlink (fs : FS) (src dst : FPath) : Except PyErr FS :=
  match entryLoc fs dst with
  | none => .error (.fileNotFound "symlink")
  | some (rq, last) =>
    match nodeAtReal fs (rq ++ [last]) with
    | some _ => .error .fileExists
    | none =>
      match nodeAtReal fs rq with
      | some (.dir _) => .ok (setAtReal fs (rq ++ [last]) (.symlink src))
      | _ => .error (.fileNotFound "symlink")

/-- `shutil.move(src, dst)` in the only configuration `manage_skill` uses it:
`dst` does not name an existing directory, so the call is a rename of the
entry at `src` to the path `dst`. -/
def moveEntry (fs : FS) (src dst : FPath) : Except PyErr FS :=
  match entryLoc fs src with
  | none => .error (.fileNotFound "move")
  | some (rq, last) =>
    match nodeAtReal fs (rq ++ [last]) with
    | none => .error (.fileNotFound "move")
    | some n =>
      let fs1 := removeAtReal fs (rq ++ [last])
      match entryLoc fs1 dst with
      | none => .error (.fileNotFound "move")
      | some (rq2, last2) => .ok (setAtReal fs1 (rq2 ++ [last2]) n)

/-- `Path.mkdir(parents=True, exist_ok=True)`, one component at a time:
an existing directory is kept, any other occupant of a component is an
error (`FileExistsError`), and a missing component is created. -/
def mkdirGo (fs : FS) (done : FPath) : List String → Except PyErr FS
  | [] => .ok fs
  | c :: rest =>
    match statNode fs (done ++ [c]) with
    | some (.dir _) => mkdirGo fs (done ++ [c]) rest
    | some _ => .error .fileExists
    | none =>
      match lstatNode fs (done ++ [c]) with
      | some _ => .error .fileExists
      | none =>
        match entryLoc fs (done ++ [c]) with
        | none => .error (.fileNotFound "mkdir")
        | some (rq, last) =>
          mkdirGo (setAtReal fs (rq ++ [last]) (.dir [])) (done ++ [c]) rest

/-- `target_dir.mkdir(parents=True, exist_ok=True)`. -/
def mkdirParents (fs : FS) (p : FPath) : Except PyErr FS :=
  mkdirGo fs [] p

/-! ## Data model (`models.py`) -/

/-- `SkillStatus` from `models.py`. -/
inductive SkillStatus where
  | active
  | inactive
  | unmanaged
deriving DecidableEq

/-- `Skill` from `models.py`.  A target-only skill carries `Path()` as its
source path, modelled by the empty path. -/
structure Skill where
  name : String
  status : SkillStatus
  description : String
  source_path : FPath
  target_path : FPath
deriving DecidableEq

/-! ## Regular-expression models

The manager uses four `re.search` calls; each is modelled by a function on
the manifest text whose doc comment spells out the concrete regex. -/

/-- ASCII model of Python's `\s` character class. -/
def pyIsSpace (c : Char) : Bool :=
  c = ' ' || c = '\t' || c = '\n' || c = '\r' || c = '\x0b' || c = '\x0c'

/-- Split a character list at every separator (Python `str.split(sep)`);
`acc` holds the current chunk reversed. -/
def splitCharsOn (sep : Char) : List Char → List Char → List String
  | [], acc => [⟨acc.reverse⟩]
  | c :: rest, acc =>
    if c = sep then ⟨acc.reverse⟩ :: splitCharsOn sep rest []
    else splitCharsOn sep rest (c :: acc)

/-- The lines of a text, as the line-oriented regexes see them. -/
def linesOf (s : String) : List String := splitCharsOn '\n' s.data []

/-- Join lines with `\n` (a regex capture is a substring of the input). -/
def joinNL (ls : List String) : String := ⟨List.intercalate ['\n'] (ls.map String.data)⟩

/-- Python `str.startswith`. -/
def strStartsWith (s pre : String) : Bool := pre.data.isPrefixOf s.data

/-- Python slicing `s[n:]` (drop the first `n` characters). -/
def strDrop (s : String) (n : Nat) : String := ⟨s.data.drop n⟩

/-- Python `str.strip()`: remove whitespace from both ends. -/
def pyStrip (s : String) : String :=
  ⟨((s.data.dropWhile pyIsSpace).reverse.dropWhile pyIsSpace).reverse⟩

/-- Python `str.lower()` (ASCII scope). -/
def pyLower (s : String) : String := ⟨s.data.map Char.toLower⟩

/-- First index `i ≥ start` with `p l[i]`, if any. -/
def findIdxFrom (p : String → Bool) (l : List String) (start : Nat) : Option Nat :=
  match (l.drop start).findIdx? p with
  | some i => some (start + i)
  | none => none

/-- Model of `re.search(r"^---\n(.*?)\n---", content, re.DOTALL)`.
Without `re.MULTILINE` the `^` anchors at the start of the string, so the
content must open with a line that is exactly `---`.  The closing delimiter
`\n---` is the newline ending some later line followed by a line *starting*
with `---`; since the lazy `.*?` begins after the opening `---\n`, that line
has index at least 2 in the line list.  The capture is the text strictly
between the delimiters. -/
def frontMatter? (content : String) : Option String :=
  let lines := linesOf content
  if lines.head? = some "---" then
    match findIdxFrom (fun l => strStartsWith l "---") lines 2 with
    | some j => some (joinNL ((lines.drop 1).take (j - 1)))
    | none => none
  else none

/-- Model of `re.search("^" + key + r":\s*\S+", block, re.MULTILINE)`:
some line of the block starts with `key:`, and a non-whitespace character
occurs at or after the end of that prefix — note that `\s*` may run across
line breaks, so the non-whitespace character may sit on a later line of the
block. -/
def hasFieldValue (key : String) : List String → Bool
  | [] => false
  | line :: rest =>
    (strStartsWith line (key ++ ":") &&
      (joinNL (strDrop line (key.length + 1) :: rest)).data.any
        (fun c => !(pyIsSpace c)))
    || hasFieldValue key rest

/-- Model of `re.search(r"^description: (.+)$", content, re.MULTILINE)`:
the first line consisting of the literal prefix `description: ` followed by
at least one character; the capture is the rest of that line. -/
def descLine? (content : String) : Option String :=
  (linesOf content).findSome? fun line =>
    if strStartsWith line "description: " && decide (13 < line.length) then
      some (strDrop line 13)
    else none

/-- Model of `re.search(r"^---\n.*?\n---\n(.*?)\n\n", content, re.DOTALL)`.
The content must open with a `---` line; the closing delimiter `\n---\n`
is a later line *equal* to `---` (index at least 2); the capture runs to the
first `\n\n`, i.e. to the first empty line whose surrounding newlines are
both present and not consumed by the closing delimiter — an empty line of
index at least `j + 2`, followed by a further newline.  The lazy `.*?` takes
the first closing delimiter for which such an empty line exists; since a
later delimiter only shrinks the search range, it suffices to take the first
closing line and then the first qualifying empty line. -/
def frontBodyPara? (content : String) : Option String :=
  let lines := linesOf content
  if lines.head? = some "---" then
    match findIdxFrom (fun l => l = "---") lines 2 with
    | some j =>
      match findIdxFrom (fun l => l = "") lines (j + 2) with
      | some e =>
        if e + 2 ≤ lines.length then
          some (joinNL ((lines.drop (j + 1)).take (e - (j + 1))))
        else none
      | none => none
    | none => none
  else none

/-! ## `SkillManager` (`manager.py`)

Each method takes the filesystem it runs against; `source_dir` and
`target_dir` are the constructor arguments.  Mutating methods return the
resulting filesystem alongside the outcome — also on an exception, since
Python performs no rollback. -/

/-- `SkillManager.__init__` (lines 13–20): raise `FileNotFoundError` when the
source directory does not exist, then `target_dir.mkdir(parents=True,
exist_ok=True)`.  (`expanduser` is identity on modelled paths.) -/
def skillManagerInit (fs : FS) (source_dir target_dir : FPath) : Except PyErr FS :=
  if !(pathExists fs source_dir) then
    .error (.fileNotFound "Source directory not found")
  else
    mkdirParents fs target_dir

/-- `SkillManager._get_directories` (lines 60–91). -/
def _get_directories (fs : FS) (path : FPath) : List String :=
  if !(pathExists fs path) then []
  else
    (iterdir fs path).filterMap fun d =>
      if !(isDir fs (path ++ [d.1])) || strStartsWith d.1 "." then none
      else if !(pathExists fs (path ++ [d.1, "SKILL.md"])) then none
      else
        match readText fs (path ++ [d.1, "SKILL.md"]) with
        | none => none
        | some content =>
          match frontMatter? content with
          | none => none
          | some yaml_content =>
            if hasFieldValue "name" (linesOf yaml_content) &&
               hasFieldValue "description" (linesOf yaml_content) then
              some d.1
            else none

/-- `Path.parents` membership: the parents of a path are its strict prefixes. -/
def inParents (anc p : FPath) : Bool :=
  !(anc == p) && anc.isPrefixOf p

/-- `SkillManager.get_skill_status` (lines 93–112).  The `try`/`except
OSError: pass` around the two `resolve()` calls falls through to
`UNMANAGED`. -/
def get_skill_status (fs : FS) (source_path target_path : FPath) : SkillStatus :=
  if !(pathExists fs source_path) then .unmanaged
  else if !(pathExists fs target_path) then .inactive
  else if isSymlink fs target_path then
    match resolvePath fs target_path, resolvePath fs source_path with
    | some resolved, some resolved_source =>
      if resolved == resolved_source || inParents resolved_source resolved then
        .active
      else .unmanaged
    | _, _ => .unmanaged
  else .unmanaged

/-- `SkillManager.parse_skill_description` (lines 162–181). -/
def parse_skill_description (fs : FS) (skill_path : FPath) : String :=
  let skill_md := skill_path ++ ["SKILL.md"]
  if !(pathExists fs skill_md) then "No description available"
  else
    match readText fs skill_md with
    | none => "Could not read description"
    | some content =>
      match descLine? content with
      | some v => pyStrip v
      | none =>
        match frontBodyPara? content with
        | some g =>
          let desc := pyStrip g
          if desc ≠ "" then desc else "No description available"
        | none => "Description not found"

/-- `SkillManager.scan_skills` (lines 22–58): one entry per source skill,
one per target-only skill, sorted by `s.name.lower()` (Python's stable sort,
modelled by `List.mergeSort`). -/
def scan_skills (fs : FS) (source_dir target_dir : FPath) : List Skill :=
  let source_skills := _get_directories fs source_dir
  let target_skills := _get_directories fs target_dir
  let fromSource := source_skills.map fun skill_name =>
    { name := skill_name
      status := get_skill_status fs (source_dir ++ [skill_name]) (target_dir ++ [skill_name])
      description := parse_skill_description fs (source_dir ++ [skill_name])
      source_path := source_dir ++ [skill_name]
      target_path := target_dir ++ [skill_name] : Skill }
  let fromTarget :=
    (target_skills.filter fun skill_name => !(source_skills.contains skill_name)).map
      fun skill_name =>
        { name := skill_name
          status := .unmanaged
          description := parse_skill_description fs (target_dir ++ [skill_name])
          source_path := []
          target_path := target_dir ++ [skill_name] : Skill }
  (fromSource ++ fromTarget).mergeSort fun a b =>
    decide (pyLower a.name ≤ pyLower b.name)

/-- `SkillManager.activate_skill` (lines 114–128). -/
def activate_skill (fs : FS) (source_dir target_dir : FPath) (skill_name : String) :
    Except PyErr Bool × FS :=
  let source_path := source_dir ++ [skill_name]
  let target_path := target_dir ++ [skill_name]
  if !(pathExists fs source_path) then
    (.error (.fileNotFound "Skill not found in source"), fs)
  else
    let removal : Except PyErr FS :=
      if pathExists fs target_path then
        if isDir fs target_path then rmtree fs target_path
        else unlinkEntry fs target_path
      else .ok fs
    match removal with
    | .error e => (.error e, fs)
    | .ok fs1 =>
      match osSymlink fs1 source_path target_path with
      | .error e => (.error e, fs1)
      | .ok fs2 => (.ok true, fs2)

/-- `SkillManager.deactivate_skill` (lines 130–140). -/
def deactivate_skill (fs : FS) (target_dir : FPath) (skill_name : String) :
    Except PyErr Bool × FS :=
  let target_path := target_dir ++ [skill_name]
  if !(pathExists fs target_path) then (.ok false, fs)
  else if isSymlink fs target_path then
    match unlinkEntry fs target_path with
    | .error e => (.error e, fs)
    | .ok fs1 => (.ok true, fs1)
  else (.ok false, fs)

/-- `SkillManager.manage_skill` (lines 142–160).  The inner
`if source_path.exists(): shutil.rmtree(source_path)` of the source branch
sits in the `else` of the same test and is kept verbatim (it always takes
its own `else`). -/
def manage_skill (fs : FS) (source_dir target_dir : FPath) (skill_name : String) :
    Except PyErr Bool × FS :=
  let source_path := source_dir ++ [skill_name]
  let target_path := target_dir ++ [skill_name]
  if !(pathExists fs target_path) then
    (.error (.fileNotFound "Skill not found in target"), fs)
  else
    let step : Except PyErr FS :=
      if pathExists fs source_path then
        if isDir fs target_path then rmtree fs target_path
        else unlinkEntry fs target_path
      else
        match (if pathExists fs source_path then rmtree fs source_path else .ok fs) with
        | .error e => .error e
        | .ok fs0 => moveEntry fs0 target_path source_path
    match step with
    | .error e => (.error e, fs)
    | .ok fs1 =>
      match osSymlink fs1 source_path target_path with
      | .error e => (.error e, fs1)
      | .ok fs2 => (.ok true, fs2)

/-! ## The standard two-tree configuration

A `SkillManager` instance watches the two directories given to its
constructor.  `mkFS` is a root holding them as the real directories `src`
and `tgt`; their children (the skill entries) are arbitrary nodes. -/

/-- The source-tree and target-tree entries of a manager state. -/
structure Trees where
  srcCh : List (String × Node)
  tgtCh : List (String × Node)

/-- The filesystem of a manager state. -/
def mkFS (t : Trees) : FS :=
  [("src", .dir t.srcCh), ("tgt", .dir t.tgtCh)]

/-! ## Concrete states used by the claims -/

/-- A source tree holding the skill `a`, with an empty target tree. -/
def c1fs0 : FS := mkFS ⟨[("a", .dir [])], []⟩

/-- The state after a first, successful `activate_skill("a")`. -/
def c1fs1 : FS := mkFS ⟨[("a", .dir [])], [("a", .symlink ["src", "a"])]⟩

/-- Source skill `a`; the target entry `a` is a symlink to a missing path. -/
def c2fs : FS := mkFS ⟨[("a", .dir [])], [("a", .symlink ["nowhere"])]⟩

/-- Source skill `a`; empty target tree. -/
def c3fs : FS := mkFS ⟨[("a", .dir [])], []⟩

/-- A target entry `a` that is a real directory with a file inside. -/
def c8fs : FS := mkFS ⟨[("a", .dir [])], [("a", .dir [("f", .file "data" true)])]⟩

/-- A manifest with front matter and a one-paragraph body not terminated by
a blank line. -/
def c7manifest : String := "---\nname: a\n---\nBody paragraph here"

/-- A source skill whose manifest is `c7manifest`. -/
def c7fs : FS := mkFS ⟨[("a", .dir [("SKILL.md", .file c7manifest true)])], []⟩

/-- A manifest whose body paragraph is terminated by a blank line. -/
def c7manifestB : String := "---\nname: a\n---\nBody paragraph\n\nmore"

/-- A source skill whose manifest is `c7manifestB`. -/
def c7fsB : FS := mkFS ⟨[("b", .dir [("SKILL.md", .file c7manifestB true)])], []⟩

/-- A manifest whose `name:` line carries no value at all. -/
def c6manifest : String := "---\nname:\ndescription: ok\n---\nbody"

/-- A source tree with one non-hidden skill directory `s` holding
`c6manifest`. -/
def c6fs : FS := mkFS ⟨[("s", .dir [("SKILL.md", .file c6manifest true)])], []⟩

/-- Two small trees for the scan witness: `a` is in both trees. -/
def c5fs : FS :=
  mkFS ⟨[("B", .dir [("SKILL.md", .file c6manifest true)]),
         ("a", .dir [("SKILL.md", .file c6manifest true)])],
        [("c", .dir [("SKILL.md", .file c6manifest true)]),
         ("a", .dir [("SKILL.md", .file c6manifest true)])]⟩

/-- A target-only skill `orphan`, as in the spec's Scenario D. -/
def c4fs : FS := mkFS ⟨[], [("orphan", .dir [("SKILL.md", .file c6manifest true)])]⟩

/-- A state for the init witness: the source directory exists, the target
path `T1/T2` is entirely absent. -/
def c10fs : FS := [("source", .dir [])]

/-! ## Directory-entry lemmas -/

theorem childNamed_setChildren_self (ch : List (String × Node)) (c : String) (n : Node) :
    childNamed (setChildren ch c n) c = some n := by
  induction ch with
  | nil => simp [setChildren, childNamed]
  | cons e rest ih =>
    by_cases h : e.1 == c
    · simp [setChildren, h, childNamed]
    · simp [setChildren, h, childNamed, ih]

theorem childNamed_setChildren_other (ch : List (String × Node)) (c y : String) (n : Node)
    (h : y ≠ c) : childNamed (setChildren ch c n) y = childNamed ch y := by
  have h' : ¬ (c = y) := Ne.symm h
  induction ch with
  | nil => simp [setChildren, childNamed, h']
  | cons e rest ih =>
    by_cases he : e.1 == c
    · have he' : e.1 = c := by simpa using he
      simp [setChildren, he, childNamed, h', he']
    · simp only [setChildren, he, if_false, childNamed]
      by_cases hey : e.1 == y
      · simp [hey]
      · simp [hey, ih]

theorem childNamed_removeChildren_self (ch : List (String × Node)) (c : String) :
    childNamed (removeChildren ch c) c = none := by
  induction ch with
  | nil => simp [removeChildren, childNamed]
  | cons e rest ih =>
    by_cases h : e.1 == c
    · simpa [removeChildren, h] using ih
    · simpa [removeChildren, h, childNamed] using ih

theorem childNamed_removeChildren_other (ch : List (String × Node)) (c y : String)
    (h : y ≠ c) : childNamed (removeChildren ch c) y = childNamed ch y := by
  induction ch with
  | nil => simp [removeChildren, childNamed]
  | cons e rest ih =>
    by_cases he : e.1 == c
    · have he' : e.1 = c := by simpa using he
      have : ¬ (e.1 == y) := by simp [he', Ne.symm h]
      simp_all [removeChildren, childNamed]
    · simp only [removeChildren, List.filter_cons, he, Bool.not_false, if_true]
      simp only [removeChildren] at ih
      simp [childNamed, ih]

theorem childNamed_mkFS_src (t : Trees) :
    childNamed (mkFS t) "src" = some (.dir t.srcCh) := rfl

theorem childNamed_mkFS_tgt (t : Trees) :
    childNamed (mkFS t) "tgt" = some (.dir t.tgtCh) := rfl

/-! ## Resolution lemmas -/

theorem nodeAtReal_one (fs : FS) (c : String) :
    nodeAtReal fs [c] = childNamed fs c := by
  cases h : childNamed fs c <;> simp [nodeAtReal, nodeAtRealGo, h]

theorem nodeAtReal_two (fs : FS) (r x : String) (ch : List (String × Node))
    (hr : childNamed fs r = some (.dir ch)) :
    nodeAtReal fs [r, x] = childNamed ch x := by
  cases h : childNamed ch x <;> simp [nodeAtReal, nodeAtRealGo, hr, h]

theorem resolveAux_one_real (fs : FS) (fuel : Nat) (c : String) (n : Node)
    (hc : childNamed fs c = some n) (hn : ∀ d, n ≠ Node.symlink d) :
    resolveAux fs (fuel + 2) [] [c] = some [c] := by
  have h1 : nodeAtReal fs [c] = some n := (nodeAtReal_one fs c).trans hc
  cases n with
  | dir ch => simp [resolveAux, h1]
  | file s b => simp [resolveAux, h1]
  | symlink d => exact absurd rfl (hn d)

theorem resolveAux_one_missing (fs : FS) (fuel : Nat) (c : String)
    (hc : childNamed fs c = none) :
    resolveAux fs (fuel + 1) [] [c] = some [c] := by
  have h1 : nodeAtReal fs [c] = none := (nodeAtReal_one fs c).trans hc
  simp [resolveAux, h1]

theorem resolveAux_one_symlink (fs : FS) (fuel : Nat) (c : String) (d : FPath)
    (hc : childNamed fs c = some (.symlink d)) :
    resolveAux fs (fuel + 1) [] [c] = resolveAux fs fuel [] d := by
  have h1 : nodeAtReal fs [c] = some (.symlink d) := (nodeAtReal_one fs c).trans hc
  simp [resolveAux, h1]

theorem resolveAux_two_real (fs : FS) (fuel : Nat) (r x : String)
    (ch : List (String × Node)) (n : Node)
    (hr : childNamed fs r = some (.dir ch)) (hx : childNamed ch x = some n)
    (hn : ∀ d, n ≠ Node.symlink d) :
    resolveAux fs (fuel + 3) [] [r, x] = some [r, x] := by
  have h1 : nodeAtReal fs [r] = some (.dir ch) := (nodeAtReal_one fs r).trans hr
  have h2 : nodeAtReal fs [r, x] = some n := (nodeAtReal_two fs r x ch hr).trans hx
  cases n with
  | dir ch2 => simp [resolveAux, h1, h2]
  | file s b => simp [resolveAux, h1, h2]
  | symlink d => exact absurd rfl (hn d)

theorem resolveAux_two_missing (fs : FS) (fuel : Nat) (r x : String)
    (ch : List (String × Node))
    (hr : childNamed fs r = some (.dir ch)) (hx : childNamed ch x = none) :
    resolveAux fs (fuel + 2) [] [r, x] = some [r, x] := by
  have h1 : nodeAtReal fs [r] = some (.dir ch) := (nodeAtReal_one fs r).trans hr
  have h2 : nodeAtReal fs [r, x] = none := (nodeAtReal_two fs r x ch hr).trans hx
  simp [resolveAux, h1, h2]

theorem resolveAux_two_symlink (fs : FS) (fuel : Nat) (r x : String)
    (ch : List (String × Node)) (d : FPath)
    (hr : childNamed fs r = some (.dir ch))
    (hx : childNamed ch x = some (.symlink d)) :
    resolveAux fs (fuel + 2) [] [r, x] = resolveAux fs fuel [] d := by
  have h1 : nodeAtReal fs [r] = some (.dir ch) := (nodeAtReal_one fs r).trans hr
  have h2 : nodeAtReal fs [r, x] = some (.symlink d) := (nodeAtReal_two fs r x ch hr).trans hx
  simp [resolveAux, h1, h2]

theorem statNode_one_real (fs : FS) (c : String) (n : Node)
    (hc : childNamed fs c = some n) (hn : ∀ d, n ≠ Node.symlink d) :
    statNode fs [c] = some n := by
  have h64 : resolveAux fs 64 [] [c] = some [c] := by
    simpa using resolveAux_one_real fs 62 c n hc hn
  simp [statNode, resolvePath, maxSymlinks, h64, nodeAtReal_one, hc]

theorem statNode_one_missing (fs : FS) (c : String)
    (hc : childNamed fs c = none) : statNode fs [c] = none := by
  have h64 : resolveAux fs 64 [] [c] = some [c] := by
    simpa using resolveAux_one_missing fs 63 c hc
  simp [statNode, resolvePath, maxSymlinks, h64, nodeAtReal_one, hc]

theorem resolvePath_two_real (fs : FS) (r x : String)
    (ch : List (String × Node)) (n : Node)
    (hr : childNamed fs r = some (.dir ch)) (hx : childNamed ch x = some n)
    (hn : ∀ d, n ≠ Node.symlink d) :
    resolvePath fs [r, x] = some [r, x] := by
  have h64 : resolveAux fs 64 [] [r, x] = some [r, x] := by
    simpa using resolveAux_two_real fs 61 r x ch n hr hx hn
  simp [resolvePath, maxSymlinks, h64]

theorem resolvePath_two_symlink (fs : FS) (r x : String)
    (ch : List (String × Node)) (d : FPath)
    (hr : childNamed fs r = some (.dir ch))
    (hx : childNamed ch x = some (.symlink d)) :
    resolvePath fs [r, x] = resolveAux fs 62 [] d := by
  have h64 : resolveAux fs 64 [] [r, x] = resolveAux fs 62 [] d := by
    simpa using resolveAux_two_symlink fs 62 r x ch d hr hx
  simp [resolvePath, maxSymlinks, h64]

theorem statNode_two_real (fs : FS) (r x : String)
    (ch : List (String × Node)) (n : Node)
    (hr : childNamed fs r = some (.dir ch)) (hx : childNamed ch x = some n)
    (hn : ∀ d, n ≠ Node.symlink d) :
    statNode fs [r, x] = some n := by
  simp [statNode, resolvePath_two_real fs r x ch n hr hx hn,
    (nodeAtReal_two fs r x ch hr).trans hx]

theorem statNode_two_missing (fs : FS) (r x : String)
    (ch : List (String × Node))
    (hr : childNamed fs r = some (.dir ch)) (hx : childNamed ch x = none) :
    statNode fs [r, x] = none := by
  have h64 : resolveAux fs 64 [] [r, x] = some [r, x] := by
    simpa using resolveAux_two_missing fs 62 r x ch hr hx
  simp [statNode, resolvePath, maxSymlinks, h64,
    (nodeAtReal_two fs r x ch hr).trans hx]

theorem statNode_two_symlink (fs : FS) (r x : String)
    (ch : List (String × Node)) (d : FPath)
    (hr : childNamed fs r = some (.dir ch))
    (hx : childNamed ch x = some (.symlink d)) :
    statNode fs [r, x] =
      match resolveAux fs 62 [] d with
      | some rp => nodeAtReal fs rp
      | none => none := by
  simp [statNode, resolvePath_two_symlink fs r x ch d hr hx]

theorem entryLoc_one (fs : FS) (c : String) : entryLoc fs [c] = some ([], c) := rfl

theorem entryLoc_two (fs : FS) (r x : String) (ch : List (String × Node))
    (hr : childNamed fs r = some (.dir ch)) :
    entryLoc fs [r, x] = some ([r], x) := by
  have h64 : resolveAux fs 64 [] [r] = some [r] := by
    simpa using resolveAux_one_real fs 62 r (.dir ch) hr (by intro d h; cases h)
  simp [entryLoc, maxSymlinks, h64]

theorem lstatNode_one (fs : FS) (c : String) :
    lstatNode fs [c] = childNamed fs c := by
  simp [lstatNode, entryLoc_one, nodeAtReal_one]

theorem lstatNode_two (fs : FS) (r x : String) (ch : List (String × Node))
    (hr : childNamed fs r = some (.dir ch)) :
    lstatNode fs [r, x] = childNamed ch x := by
  simp [lstatNode, entryLoc_two fs r x ch hr, nodeAtReal_two fs r x ch hr]

/-! ## Mutation lemmas -/

theorem setNode_one_dir (ch : List (String × Node)) (x : String) (n : Node) :
    setNode (.dir ch) [x] n = .dir (setChildren ch x n) := by
  cases h : childNamed ch x <;> simp [setNode, h]

theorem setAtReal_one (fs : FS) (c : String) (n : Node) :
    setAtReal fs [c] n = setChildren fs c n := by
  simp [setAtReal, setNode_one_dir]

theorem setAtReal_two (fs : FS) (r x : String) (ch : List (String × Node)) (n : Node)
    (hr : childNamed fs r = some (.dir ch)) :
    setAtReal fs [r, x] n = setChildren fs r (.dir (setChildren ch x n)) := by
  show (match setNode (.dir fs) (r :: [x]) n with
        | .dir ch => ch
        | _ => fs) = _
  rw [show setNode (.dir fs) (r :: [x]) n
      = .dir (setChildren fs r (setNode (.dir ch) [x] n)) by simp [setNode, hr]]
  simp [setNode_one_dir]

theorem removeAtReal_one (fs : FS) (c : String) :
    removeAtReal fs [c] = removeChildren fs c := rfl

theorem removeAtReal_two (fs : FS) (r x : String) :
    removeAtReal fs [r, x] =
      fs.map (fun e => if e.1 == r then (e.1, remNode e.2 [x]) else e) := by
  simp [removeAtReal, remNode]

/-! ## Computation on the two-tree configuration -/

theorem setAtReal_mkFS_src (t : Trees) (x : String) (n : Node) :
    setAtReal (mkFS t) ["src", x] n = mkFS ⟨setChildren t.srcCh x n, t.tgtCh⟩ := by
  rw [setAtReal_two (mkFS t) "src" x t.srcCh n (childNamed_mkFS_src t)]
  simp [mkFS, setChildren]

theorem setAtReal_mkFS_tgt (t : Trees) (x : String) (n : Node) :
    setAtReal (mkFS t) ["tgt", x] n = mkFS ⟨t.srcCh, setChildren t.tgtCh x n⟩ := by
  rw [setAtReal_two (mkFS t) "tgt" x t.tgtCh n (childNamed_mkFS_tgt t)]
  simp [mkFS, setChildren]

theorem removeAtReal_mkFS_src (t : Trees) (x : String) :
    removeAtReal (mkFS t) ["src", x] = mkFS ⟨removeChildren t.srcCh x, t.tgtCh⟩ := by
  rw [removeAtReal_two]
  simp [mkFS, remNode]

theorem removeAtReal_mkFS_tgt (t : Trees) (x : String) :
    removeAtReal (mkFS t) ["tgt", x] = mkFS ⟨t.srcCh, removeChildren t.tgtCh x⟩ := by
  rw [removeAtReal_two]
  simp [mkFS, remNode]

/-! ## Claim C1

The spec claims `activate(x)` twice in a row succeeds both times, the second
call removing and recreating the symlink.  In the code the second call
reaches `shutil.rmtree(target_path)` — `target_path.exists()` and
`target_path.is_dir()` both follow the symlink created by the first call —
and `shutil.rmtree` refuses a symbolic link, raising `OSError` without
removing anything.  The intent of the remove-and-recreate branch (and the
spec's explicit idempotence property) is defeated by `is_dir()` following
symlinks: a code bug. -/

/-- C1 (code bug): activating the skill `a` once succeeds and leaves it
`ACTIVE`, but the second `activate` raises `OSError("Cannot call rmtree on a
symbolic link")` instead of succeeding — `is_dir()` follows the fresh
symlink and `shutil.rmtree` refuses symbolic links. -/
theorem c1_second_activate_raises :
    activate_skill c1fs0 ["src"] ["tgt"] "a" = (.ok true, c1fs1) ∧
    get_skill_status c1fs1 ["src", "a"] ["tgt", "a"] = .active ∧
    (activate_skill c1fs1 ["src"] ["tgt"] "a").1 =
      .error (.osError "Cannot call rmtree on a symbolic link") :=
  ⟨rfl, rfl, rfl⟩

/-! ## Claim C2

The spec claims a dangling target symlink yields `UNMANAGED`.  In the code
`target_path.exists()` follows symlinks, so a dangling link counts as "no
target entry" and the classifier returns `INACTIVE` — without raising. -/

/-- C2 counterexample: with the source path existing and the target path a
dangling symbolic link, the classifier returns `INACTIVE`, not `UNMANAGED`
as claimed. -/
theorem c2_dangling_not_unmanaged :
    pathExists c2fs ["src", "a"] = true ∧
    isSymlink c2fs ["tgt", "a"] = true ∧
    pathExists c2fs ["tgt", "a"] = false ∧
    get_skill_status c2fs ["src", "a"] ["tgt", "a"] = .inactive ∧
    get_skill_status c2fs ["src", "a"] ["tgt", "a"] ≠ .unmanaged :=
  ⟨rfl, rfl, rfl, rfl, by decide⟩

/-- C2 as amended: for every skill whose source path exists and whose target
path is a dangling symbolic link (a symlink whose entry fails the
follow-symlinks existence test), the classifier does not raise and returns
`INACTIVE`. -/
theorem c2_dangling_symlink_inactive (fs : FS) (source_path target_path : FPath)
    (hs : pathExists fs source_path = true)
    (_hsym : isSymlink fs target_path = true)
    (ht : pathExists fs target_path = false) :
    get_skill_status fs source_path target_path = .inactive := by
  simp [get_skill_status, hs, ht]

/-- Witness for `c2_dangling_symlink_inactive` at the concrete state `c2fs`. -/
theorem c2_dangling_symlink_inactive_witness :
    pathExists c2fs ["src", "a"] = true ∧
    isSymlink c2fs ["tgt", "a"] = true ∧
    pathExists c2fs ["tgt", "a"] = false ∧
    get_skill_status c2fs ["src", "a"] ["tgt", "a"] = .inactive :=
  ⟨rfl, rfl, rfl,
    c2_dangling_symlink_inactive c2fs ["src", "a"] ["tgt", "a"] rfl rfl rfl⟩

/-! ## Claim C3

The spec claims `deactivate` surfaces a missing target entry as a distinct
catchable exception.  The code returns plain `False`
(`if not target_path.exists(): return False`); the not-found exceptions are
raised by `activate_skill` (missing source) and `manage_skill` (missing
target) only. -/

/-- C3 counterexample: deactivating a name with no entry at the target path
returns the boolean-false "operation failed" result — no exception is
raised. -/
theorem c3_deactivate_missing_no_exception :
    deactivate_skill c3fs ["tgt"] "a" = (.ok false, c3fs) := rfl

/-- C3 as amended: when `deactivate(name)` is called for a name with no
entry at the target path, the code returns boolean `False` (and leaves the
filesystem unchanged); the not-found case is not surfaced as an exception. -/
theorem c3_deactivate_missing_returns_false (fs : FS) (target_dir : FPath)
    (skill_name : String)
    (h : pathExists fs (target_dir ++ [skill_name]) = false) :
    deactivate_skill fs target_dir skill_name = (.ok false, fs) := by
  simp [deactivate_skill, h]

/-- Witness for `c3_deactivate_missing_returns_false` at the state `c3fs`. -/
theorem c3_deactivate_missing_returns_false_witness :
    pathExists c3fs ["tgt", "a"] = false ∧
    deactivate_skill c3fs ["tgt"] "a" = (.ok false, c3fs) :=
  ⟨rfl, c3_deactivate_missing_returns_false c3fs ["tgt"] "a" rfl⟩

/-! ## Claim C8 -/

/-- C8: deactivating a skill whose target entry exists and is a real
directory (not a symlink) returns `False` and leaves the filesystem — in
particular that directory and its contents — unchanged. -/
theorem c8_deactivate_real_dir_noop (fs : FS) (target_dir : FPath)
    (skill_name : String) (ch : List (String × Node))
    (hex : pathExists fs (target_dir ++ [skill_name]) = true)
    (hdir : lstatNode fs (target_dir ++ [skill_name]) = some (.dir ch)) :
    deactivate_skill fs target_dir skill_name = (.ok false, fs) := by
  simp [deactivate_skill, hex, isSymlink, hdir]

/-- Witness for `c8_deactivate_real_dir_noop` at the state `c8fs`. -/
theorem c8_deactivate_real_dir_noop_witness :
    pathExists c8fs ["tgt", "a"] = true ∧
    lstatNode c8fs ["tgt", "a"] = some (.dir [("f", .file "data" true)]) ∧
    deactivate_skill c8fs ["tgt"] "a" = (.ok false, c8fs) :=
  ⟨rfl, rfl,
    c8_deactivate_real_dir_noop c8fs ["tgt"] "a" [("f", .file "data" true)] rfl rfl⟩

/-! ## Claim C7

The spec claims the parser falls back to "the trimmed first paragraph of the
body" whenever a front-matter block is present.  The code's fallback regex
`^---\n.*?\n---\n(.*?)\n\n` additionally requires the paragraph to be
*terminated by a blank line* (`\n\n`): a manifest whose body is a single
paragraph with no blank line after it yields the sentinel
`"Description not found"` instead.  (A first paragraph that trims to the
empty string yields `"No description available"`, the missing-manifest
sentinel.) -/

theorem pathExists_of_readText (fs : FS) (p : FPath) (content : String)
    (h : readText fs p = some content) : pathExists fs p = true := by
  cases hs : statNode fs p with
  | none => simp [readText, hs] at h
  | some n => simp [pathExists, hs]

/-- C7 counterexample: the manifest has no `description:` line, a
front-matter block is present (the same block the scanner extracts), and a
non-empty body follows it — yet the parser returns `"Description not
found"` rather than the trimmed first paragraph `"Body paragraph here"`,
because no blank line terminates the paragraph. -/
theorem c7_unterminated_paragraph_not_found :
    readText c7fs ["src", "a", "SKILL.md"] = some c7manifest ∧
    frontMatter? c7manifest = some "name: a" ∧
    descLine? c7manifest = none ∧
    parse_skill_description c7fs ["src", "a"] = "Description not found" :=
  ⟨rfl, rfl, rfl, rfl⟩

/-- C7 as amended: the parser returns the trimmed value of the first
`description: <value>` line when one exists; otherwise, when the front
matter is closed by a line equal to `---` and the body's first paragraph is
terminated by a blank line, that paragraph trimmed — with `"No description
available"` substituted if it trims to empty; otherwise exactly
`"Description not found"`; `"No description available"` when the manifest
is missing; `"Could not read description"` when it cannot be read or
decoded. -/
theorem c7_parse_description_cases (fs : FS) (skill_path : FPath) :
    (pathExists fs (skill_path ++ ["SKILL.md"]) = false →
       parse_skill_description fs skill_path = "No description available") ∧
    (pathExists fs (skill_path ++ ["SKILL.md"]) = true →
       readText fs (skill_path ++ ["SKILL.md"]) = none →
       parse_skill_description fs skill_path = "Could not read description") ∧
    (∀ content, readText fs (skill_path ++ ["SKILL.md"]) = some content →
       (∀ v, descLine? content = some v →
          parse_skill_description fs skill_path = pyStrip v) ∧
       (descLine? content = none →
          ∀ g, frontBodyPara? content = some g →
            parse_skill_description fs skill_path =
              (if pyStrip g = "" then "No description available" else pyStrip g)) ∧
       (descLine? content = none → frontBodyPara? content = none →
          parse_skill_description fs skill_path = "Description not found")) := by
  refine ⟨fun h => by simp [parse_skill_description, h], ?_, ?_⟩
  · intro hex hnone
    simp [parse_skill_description, hex, hnone]
  · intro content hread
    have hex := pathExists_of_readText fs (skill_path ++ ["SKILL.md"]) content hread
    refine ⟨?_, ?_, ?_⟩
    · intro v hv
      simp [parse_skill_description, hex, hread, hv]
    · intro hd g hg
      by_cases hz : pyStrip g = ""
      · simp [parse_skill_description, hex, hread, hd, hg, hz]
      · simp [parse_skill_description, hex, hread, hd, hg, hz]
    · intro hd hp
      simp [parse_skill_description, hex, hread, hd, hp]

/-- Witness for `c7_parse_description_cases`: the blank-line-terminated
paragraph of `c7manifestB` is returned trimmed. -/
theorem c7_parse_description_cases_witness :
    parse_skill_description c7fsB ["src", "b"] = "Body paragraph" := by
  have h := ((c7_parse_description_cases c7fsB ["src", "b"]).2.2 c7manifestB rfl).2.1
      rfl "Body paragraph" rfl
  rw [if_neg (by decide)] at h
  exact h.trans (by decide)

/-! ## Claim C6

The spec claims the scanner includes exactly the non-hidden subdirectories
whose readable manifest has a front-matter block with *non-whitespace*
`name:` and `description:` values.  The code's check
`re.search(r"^name:\s*\S+", ..., re.MULTILINE)` lets `\s*` run across line
breaks, so a manifest whose `name:` line has an empty value is still
included whenever any non-whitespace text follows later in the block. -/

/-- C6 counterexample: the `name:` line of `c6manifest` is exactly `name:`
— its value is empty, hence not non-whitespace — yet the scanner includes
the directory, because the `\s*\S+` of the name check is satisfied by the
text of the following line. -/
theorem c6_empty_name_value_included :
    readText c6fs ["src", "s", "SKILL.md"] = some c6manifest ∧
    linesOf c6manifest = ["---", "name:", "description: ok", "---", "body"] ∧
    _get_directories c6fs ["src"] = ["s"] :=
  ⟨rfl, rfl, rfl⟩

/-- C6 as amended: the scanner includes exactly the immediate entries that
are non-hidden directories containing a readable `SKILL.md` that opens with
a front-matter block closed by a `---` line, such that inside the block a
line starts with `name:` and one with `description:`, each followed —
possibly after whitespace that may span line breaks — by a non-whitespace
character; a manifest missing the closing delimiter is excluded entirely,
and a nonexistent root yields an empty result. -/
theorem c6_scanner_characterization (fs : FS) (root : FPath) (x : String) :
    x ∈ _get_directories fs root ↔
      pathExists fs root = true ∧
      ∃ n, (x, n) ∈ iterdir fs root ∧
        strStartsWith x "." = false ∧
        isDir fs (root ++ [x]) = true ∧
        pathExists fs (root ++ [x, "SKILL.md"]) = true ∧
        ∃ content, readText fs (root ++ [x, "SKILL.md"]) = some content ∧
          ∃ yaml, frontMatter? content = some yaml ∧
            hasFieldValue "name" (linesOf yaml) = true ∧
            hasFieldValue "description" (linesOf yaml) = true := by
  by_cases hroot : pathExists fs root
  · simp only [_get_directories, hroot, Bool.not_true, if_neg (by simp : ¬ (false = true))]
    rw [List.mem_filterMap]
    constructor
    · rintro ⟨⟨dx, dn⟩, hd, hf⟩
      cases h1 : (!(isDir fs (root ++ [dx])) || strStartsWith dx ".") with
      | true => simp [h1] at hf
      | false =>
        simp only [h1, if_neg (by simp : ¬ (false = true))] at hf
        rw [Bool.or_eq_false_iff] at h1
        obtain ⟨h1a, h1b⟩ := h1
        rw [Bool.not_eq_false'] at h1a
        cases h2 : pathExists fs (root ++ [dx, "SKILL.md"]) with
        | false => simp [h2] at hf
        | true =>
          simp only [h2, Bool.not_true, if_neg (by simp : ¬ (false = true))] at hf
          cases hread : readText fs (root ++ [dx, "SKILL.md"]) with
          | none => simp [hread] at hf
          | some content =>
            simp only [hread] at hf
            cases hfm : frontMatter? content with
            | none => simp [hfm] at hf
            | some yaml =>
              simp only [hfm] at hf
              cases h4 : (hasFieldValue "name" (linesOf yaml) &&
                  hasFieldValue "description" (linesOf yaml)) with
              | false => simp [h4] at hf
              | true =>
                simp only [h4, if_true, Option.some.injEq] at hf
                subst hf
                rw [Bool.and_eq_true] at h4
                exact ⟨trivial, dn, hd, h1b, h1a, h2, content, hread, yaml, hfm,
                  h4.1, h4.2⟩
    · rintro ⟨-, n, hmem, hhid, hdir, hex, content, hread, yaml, hfm, hn, hdesc⟩
      refine ⟨(x, n), hmem, ?_⟩
      simp [hdir, hhid, hex, hread, hfm, hn, hdesc]
  · simp only [Bool.not_eq_true] at hroot
    simp [_get_directories, hroot]

/-! ## Claim C5 -/

theorem nodup_filterMap_fst {f : (String × Node) → Option String}
    (hf : ∀ d y, f d = some y → y = d.1) :
    ∀ l : List (String × Node), (l.map Prod.fst).Nodup → (l.filterMap f).Nodup := by
  intro l
  induction l with
  | nil => simp
  | cons d rest ih =>
    intro h
    rw [List.map_cons, List.nodup_cons] at h
    obtain ⟨hd, hrest⟩ := h
    rw [List.filterMap_cons]
    cases hfd : f d with
    | none => exact ih hrest
    | some y =>
      rw [List.nodup_cons]
      refine ⟨?_, ih hrest⟩
      intro hmem
      rw [List.mem_filterMap] at hmem
      obtain ⟨e, he, hfe⟩ := hmem
      have h1 : y = d.1 := hf d y hfd
      have h2 : y = e.1 := hf e y hfe
      exact hd (h1 ▸ h2 ▸ List.mem_map_of_mem Prod.fst he)

/-- Whatever the scanner's per-entry filter returns, it is the entry's own
name. -/
theorem _get_directories_nodup (fs : FS) (root : FPath)
    (h : ((iterdir fs root).map Prod.fst).Nodup) :
    (_get_directories fs root).Nodup := by
  unfold _get_directories
  split
  · exact List.nodup_nil
  · apply nodup_filterMap_fst ?_ _ h
    intro d y hf
    cases h1 : (!(isDir fs (root ++ [d.1])) || strStartsWith d.1 ".") with
    | true => simp [h1] at hf
    | false =>
      simp only [h1, if_neg (by simp : ¬ (false = true))] at hf
      cases h2 : pathExists fs (root ++ [d.1, "SKILL.md"]) with
      | false => simp [h2] at hf
      | true =>
        simp only [h2, Bool.not_true, if_neg (by simp : ¬ (false = true))] at hf
        cases hread : readText fs (root ++ [d.1, "SKILL.md"]) with
        | none => simp [hread] at hf
        | some content =>
          simp only [hread] at hf
          cases hfm : frontMatter? content with
          | none => simp [hfm] at hf
          | some yaml =>
            simp only [hfm] at hf
            cases h4 : (hasFieldValue "name" (linesOf yaml) &&
                hasFieldValue "description" (linesOf yaml)) with
            | false => simp [h4] at hf
            | true =>
              simp only [h4, if_true, Option.some.injEq] at hf
              exact hf.symm

/-- C5: `scan()` returns exactly one entry per qualifying name — the union
of the qualifying names of the two trees, with a name present in both
reported once — and the result is sorted by name case-insensitively.
The hypotheses say the two root directories list each entry name once, as
a real directory does. -/
theorem c5_scan_union_sorted (fs : FS) (source_dir target_dir : FPath)
    (h1 : ((iterdir fs source_dir).map Prod.fst).Nodup)
    (h2 : ((iterdir fs target_dir).map Prod.fst).Nodup) :
    ((scan_skills fs source_dir target_dir).map Skill.name).Nodup ∧
    (∀ x, x ∈ (scan_skills fs source_dir target_dir).map Skill.name ↔
       x ∈ _get_directories fs source_dir ∨ x ∈ _get_directories fs target_dir) ∧
    (scan_skills fs source_dir target_dir).Pairwise
      (fun a b => pyLower a.name ≤ pyLower b.name) := by
  have hS := _get_directories_nodup fs source_dir h1
  have hT := _get_directories_nodup fs target_dir h2
  classical
  set S := _get_directories fs source_dir with hSdef
  set T := _get_directories fs target_dir with hTdef
  set le : Skill → Skill → Bool := fun a b => decide (pyLower a.name ≤ pyLower b.name)
    with hle
  set L : List Skill :=
    (S.map fun skill_name =>
      { name := skill_name
        status := get_skill_status fs (source_dir ++ [skill_name])
            (target_dir ++ [skill_name])
        description := parse_skill_description fs (source_dir ++ [skill_name])
        source_path := source_dir ++ [skill_name]
        target_path := target_dir ++ [skill_name] : Skill }) ++
    ((T.filter fun skill_name => !(S.contains skill_name)).map fun skill_name =>
      { name := skill_name
        status := .unmanaged
        description := parse_skill_description fs (target_dir ++ [skill_name])
        source_path := []
        target_path := target_dir ++ [skill_name] : Skill }) with hL
  have hscan : scan_skills fs source_dir target_dir = L.mergeSort le := rfl
  have hperm : List.Perm (scan_skills fs source_dir target_dir) L := by
    rw [hscan]; exact List.mergeSort_perm L le
  have hnames : L.map Skill.name = S ++ T.filter (fun n => !(S.contains n)) := by
    rw [hL]
    simp [List.map_map, Function.comp_def]
  have hnames_perm :
      List.Perm ((scan_skills fs source_dir target_dir).map Skill.name)
        (S ++ T.filter (fun n => !(S.contains n))) := by
    rw [← hnames]; exact hperm.map Skill.name
  refine ⟨?_, ?_, ?_⟩
  · refine hnames_perm.nodup_iff.mpr ?_
    rw [List.nodup_append]
    refine ⟨hS, hT.filter _, ?_⟩
    intro x hxS hxF
    rw [List.mem_filter] at hxF
    have hnot : ¬ x ∈ S := by simpa using hxF.2
    exact hnot hxS
  · intro x
    rw [hnames_perm.mem_iff, List.mem_append, List.mem_filter]
    constructor
    · rintro (hx | ⟨hx, -⟩)
      · exact Or.inl hx
      · exact Or.inr hx
    · rintro (hx | hx)
      · exact Or.inl hx
      · by_cases hxs : x ∈ S
        · exact Or.inl hxs
        · exact Or.inr ⟨hx, by simpa using hxs⟩
  · have htrans : ∀ a b c : Skill, le a b → le b c → le a c := by
      intro a b c hab hbc
      rw [hle] at *
      simp only [decide_eq_true_eq] at *
      exact le_trans hab hbc
    have htotal : ∀ a b : Skill, le a b || le b a := by
      intro a b
      rw [hle]
      rcases le_total (pyLower a.name) (pyLower b.name) with h | h <;> simp [h]
    have := List.sorted_mergeSort htrans htotal L
    rw [hscan]
    exact this.imp (fun h => by simpa [hle] using h)

/-- Witness for `c5_scan_union_sorted` at the concrete state `c5fs`. -/
theorem c5_scan_union_sorted_witness :
    ((scan_skills c5fs ["src"] ["tgt"]).map Skill.name).Nodup :=
  (c5_scan_union_sorted c5fs ["src"] ["tgt"] (by decide) (by decide)).1

/-! ## Entry-level operations on the two-tree configuration -/

theorem osSymlink_mkFS_tgt_fresh (t : Trees) (x : String) (src : FPath)
    (hcx : childNamed t.tgtCh x = none) :
    osSymlink (mkFS t) src ["tgt", x] =
      .ok (mkFS ⟨t.srcCh, setChildren t.tgtCh x (.symlink src)⟩) := by
  rw [osSymlink.eq_def, entryLoc_two (mkFS t) "tgt" x t.tgtCh (childNamed_mkFS_tgt t)]
  simp only [List.cons_append, List.nil_append]
  rw [(nodeAtReal_two (mkFS t) "tgt" x t.tgtCh (childNamed_mkFS_tgt t)).trans hcx]
  rw [(nodeAtReal_one (mkFS t) "tgt").trans (childNamed_mkFS_tgt t)]
  rw [setAtReal_mkFS_tgt]

theorem osSymlink_mkFS_tgt_occupied (t : Trees) (x : String) (src : FPath) (n : Node)
    (hcx : childNamed t.tgtCh x = some n) :
    osSymlink (mkFS t) src ["tgt", x] = .error .fileExists := by
  rw [osSymlink.eq_def, entryLoc_two (mkFS t) "tgt" x t.tgtCh (childNamed_mkFS_tgt t)]
  simp only [List.cons_append, List.nil_append]
  rw [(nodeAtReal_two (mkFS t) "tgt" x t.tgtCh (childNamed_mkFS_tgt t)).trans hcx]

theorem rmtree_mkFS_tgt_dir (t : Trees) (x : String) (ch : List (String × Node))
    (hcx : childNamed t.tgtCh x = some (.dir ch)) :
    rmtree (mkFS t) ["tgt", x] = .ok (mkFS ⟨t.srcCh, removeChildren t.tgtCh x⟩) := by
  rw [rmtree.eq_def, entryLoc_two (mkFS t) "tgt" x t.tgtCh (childNamed_mkFS_tgt t)]
  simp only [List.cons_append, List.nil_append]
  rw [(nodeAtReal_two (mkFS t) "tgt" x t.tgtCh (childNamed_mkFS_tgt t)).trans hcx]
  rw [removeAtReal_mkFS_tgt]

theorem rmtree_mkFS_tgt_symlink (t : Trees) (x : String) (d : FPath)
    (hcx : childNamed t.tgtCh x = some (.symlink d)) :
    rmtree (mkFS t) ["tgt", x] =
      .error (.osError "Cannot call rmtree on a symbolic link") := by
  rw [rmtree.eq_def, entryLoc_two (mkFS t) "tgt" x t.tgtCh (childNamed_mkFS_tgt t)]
  simp only [List.cons_append, List.nil_append]
  rw [(nodeAtReal_two (mkFS t) "tgt" x t.tgtCh (childNamed_mkFS_tgt t)).trans hcx]

theorem unlink_mkFS_tgt_file (t : Trees) (x : String) (s : String) (b : Bool)
    (hcx : childNamed t.tgtCh x = some (.file s b)) :
    unlinkEntry (mkFS t) ["tgt", x] =
      .ok (mkFS ⟨t.srcCh, removeChildren t.tgtCh x⟩) := by
  rw [unlinkEntry.eq_def, entryLoc_two (mkFS t) "tgt" x t.tgtCh (childNamed_mkFS_tgt t)]
  simp only [List.cons_append, List.nil_append]
  rw [(nodeAtReal_two (mkFS t) "tgt" x t.tgtCh (childNamed_mkFS_tgt t)).trans hcx]
  rw [removeAtReal_mkFS_tgt]

theorem unlink_mkFS_tgt_symlink (t : Trees) (x : String) (d : FPath)
    (hcx : childNamed t.tgtCh x = some (.symlink d)) :
    unlinkEntry (mkFS t) ["tgt", x] =
      .ok (mkFS ⟨t.srcCh, removeChildren t.tgtCh x⟩) := by
  rw [unlinkEntry.eq_def, entryLoc_two (mkFS t) "tgt" x t.tgtCh (childNamed_mkFS_tgt t)]
  simp only [List.cons_append, List.nil_append]
  rw [(nodeAtReal_two (mkFS t) "tgt" x t.tgtCh (childNamed_mkFS_tgt t)).trans hcx]
  rw [removeAtReal_mkFS_tgt]

/-! ## Claim C4 -/

/-- After an adoption the source entry is a real directory and the target
entry is a symlink to it, which the classifier reports `ACTIVE`. -/
theorem status_active_of_symlink (sc tc : List (String × Node)) (x : String)
    (d : List (String × Node))
    (hsrcx : childNamed sc x = some (.dir d))
    (htgtx : childNamed tc x = some (.symlink ["src", x])) :
    get_skill_status (mkFS ⟨sc, tc⟩) ["src", x] ["tgt", x] = .active := by
  have hnd : ∀ p, Node.dir d ≠ Node.symlink p := fun _ h => by cases h
  have hres62 : resolveAux (mkFS ⟨sc, tc⟩) 62 [] ["src", x] = some ["src", x] := by
    simpa using resolveAux_two_real (mkFS ⟨sc, tc⟩) 59 "src" x sc (.dir d)
      (childNamed_mkFS_src ⟨sc, tc⟩) hsrcx hnd
  have hs1 : pathExists (mkFS ⟨sc, tc⟩) ["src", x] = true := by
    simp [pathExists, statNode_two_real (mkFS ⟨sc, tc⟩) "src" x sc (.dir d)
      (childNamed_mkFS_src ⟨sc, tc⟩) hsrcx hnd]
  have ht1 : pathExists (mkFS ⟨sc, tc⟩) ["tgt", x] = true := by
    rw [pathExists, statNode_two_symlink (mkFS ⟨sc, tc⟩) "tgt" x tc ["src", x]
      (childNamed_mkFS_tgt ⟨sc, tc⟩) htgtx]
    rw [hres62]
    simp [(nodeAtReal_two (mkFS ⟨sc, tc⟩) "src" x sc
      (childNamed_mkFS_src ⟨sc, tc⟩)).trans hsrcx]
  have hsym1 : isSymlink (mkFS ⟨sc, tc⟩) ["tgt", x] = true := by
    simp [isSymlink,
      lstatNode_two (mkFS ⟨sc, tc⟩) "tgt" x tc (childNamed_mkFS_tgt ⟨sc, tc⟩), htgtx]
  have hrt : resolvePath (mkFS ⟨sc, tc⟩) ["tgt", x] = some ["src", x] := by
    rw [resolvePath_two_symlink (mkFS ⟨sc, tc⟩) "tgt" x tc ["src", x]
      (childNamed_mkFS_tgt ⟨sc, tc⟩) htgtx, hres62]
  have hrs : resolvePath (mkFS ⟨sc, tc⟩) ["src", x] = some ["src", x] :=
    resolvePath_two_real (mkFS ⟨sc, tc⟩) "src" x sc (.dir d)
      (childNamed_mkFS_src ⟨sc, tc⟩) hsrcx hnd
  simp [get_skill_status, hs1, ht1, hsym1, hrt, hrs]

/-- C4: adopting a skill that is a real directory in the target tree and
absent from the source tree moves the directory to the source tree and
replaces the target entry by a symlink to the new source path, after which
the status classifier (hence a re-scan) reports `ACTIVE`; and adopting a
name whose target path does not exist raises the "not found in target"
error. -/
theorem c4_manage_adopts (t : Trees) (x : String) :
    (∀ d, childNamed t.srcCh x = none → childNamed t.tgtCh x = some (.dir d) →
      manage_skill (mkFS t) ["src"] ["tgt"] x =
        (.ok true,
         mkFS ⟨setChildren t.srcCh x (.dir d),
               setChildren (removeChildren t.tgtCh x) x (.symlink ["src", x])⟩) ∧
      get_skill_status (manage_skill (mkFS t) ["src"] ["tgt"] x).2
        ["src", x] ["tgt", x] = .active) ∧
    (pathExists (mkFS t) ["tgt", x] = false →
      manage_skill (mkFS t) ["src"] ["tgt"] x =
        (.error (.fileNotFound "Skill not found in target"), mkFS t)) := by
  constructor
  · intro d hsrc htgt
    have hnd : ∀ p, Node.dir d ≠ Node.symlink p := fun _ h => by cases h
    have hTex : pathExists (mkFS t) ["tgt", x] = true := by
      simp [pathExists,
        statNode_two_real (mkFS t) "tgt" x t.tgtCh (.dir d)
          (childNamed_mkFS_tgt t) htgt hnd]
    have hSex : pathExists (mkFS t) ["src", x] = false := by
      simp [pathExists,
        statNode_two_missing (mkFS t) "src" x t.srcCh (childNamed_mkFS_src t) hsrc]
    -- the rename of the target directory into the source tree
    have hmove : moveEntry (mkFS t) ["tgt", x] ["src", x] =
        .ok (mkFS ⟨setChildren t.srcCh x (.dir d), removeChildren t.tgtCh x⟩) := by
      rw [moveEntry.eq_def]
      rw [entryLoc_two (mkFS t) "tgt" x t.tgtCh (childNamed_mkFS_tgt t)]
      simp only [List.cons_append, List.nil_append]
      rw [(nodeAtReal_two (mkFS t) "tgt" x t.tgtCh (childNamed_mkFS_tgt t)).trans htgt]
      rw [removeAtReal_mkFS_tgt t x]
      rw [entryLoc_two _ "src" x t.srcCh
        (childNamed_mkFS_src ⟨t.srcCh, removeChildren t.tgtCh x⟩)]
      simp only [List.cons_append, List.nil_append]
      rw [setAtReal_mkFS_src ⟨t.srcCh, removeChildren t.tgtCh x⟩ x (.dir d)]
    -- the symlink creation at the old target path
    have hsym : osSymlink
        (mkFS ⟨setChildren t.srcCh x (.dir d), removeChildren t.tgtCh x⟩)
        ["src", x] ["tgt", x] =
        .ok (mkFS ⟨setChildren t.srcCh x (.dir d),
              setChildren (removeChildren t.tgtCh x) x (.symlink ["src", x])⟩) := by
      rw [osSymlink.eq_def]
      rw [entryLoc_two _ "tgt" x (removeChildren t.tgtCh x)
        (childNamed_mkFS_tgt ⟨setChildren t.srcCh x (.dir d), removeChildren t.tgtCh x⟩)]
      simp only [List.cons_append, List.nil_append]
      rw [(nodeAtReal_two _ "tgt" x (removeChildren t.tgtCh x)
          (childNamed_mkFS_tgt ⟨setChildren t.srcCh x (.dir d), removeChildren t.tgtCh x⟩)).trans
        (childNamed_removeChildren_self t.tgtCh x)]
      rw [(nodeAtReal_one _ "tgt").trans
        (childNamed_mkFS_tgt ⟨setChildren t.srcCh x (.dir d), removeChildren t.tgtCh x⟩)]
      rw [setAtReal_mkFS_tgt ⟨setChildren t.srcCh x (.dir d), removeChildren t.tgtCh x⟩ x
        (.symlink ["src", x])]
    have hmain : manage_skill (mkFS t) ["src"] ["tgt"] x =
        (.ok true,
         mkFS ⟨setChildren t.srcCh x (.dir d),
               setChildren (removeChildren t.tgtCh x) x (.symlink ["src", x])⟩) := by
      simp only [manage_skill, List.cons_append, List.nil_append, hTex, hSex,
        Bool.not_true, Bool.false_eq_true, if_false, hmove, hsym]
    refine ⟨hmain, ?_⟩
    rw [hmain]
    exact status_active_of_symlink (setChildren t.srcCh x (.dir d))
      (setChildren (removeChildren t.tgtCh x) x (.symlink ["src", x])) x d
      (childNamed_setChildren_self t.srcCh x (.dir d))
      (childNamed_setChildren_self (removeChildren t.tgtCh x) x (.symlink ["src", x]))
  · intro h
    simp [manage_skill, h]

/-- Witness for `c4_manage_adopts`: adopting `orphan` from `c4fs` moves it
under the source tree, symlinks the target path, and classifies it
`ACTIVE`; adopting the absent name `ghost` fails with the not-found error. -/
theorem c4_manage_adopts_witness :
    (manage_skill c4fs ["src"] ["tgt"] "orphan" =
      (.ok true,
       mkFS ⟨setChildren [] "orphan" (.dir [("SKILL.md", .file c6manifest true)]),
             setChildren
               (removeChildren [("orphan", .dir [("SKILL.md", .file c6manifest true)])]
                 "orphan")
               "orphan" (.symlink ["src", "orphan"])⟩) ∧
     get_skill_status (manage_skill c4fs ["src"] ["tgt"] "orphan").2
       ["src", "orphan"] ["tgt", "orphan"] = .active) ∧
    manage_skill c4fs ["src"] ["tgt"] "ghost" =
      (.error (.fileNotFound "Skill not found in target"), c4fs) :=
  ⟨(c4_manage_adopts ⟨[], [("orphan", .dir [("SKILL.md", .file c6manifest true)])]⟩
      "orphan").1 [("SKILL.md", .file c6manifest true)] rfl rfl,
   (c4_manage_adopts ⟨[], [("orphan", .dir [("SKILL.md", .file c6manifest true)])]⟩
      "ghost").2 rfl⟩

/-! ## Claim C9 -/

/-- C9: whatever `activate_skill` and `deactivate_skill` do — succeed,
refuse, or raise — the resulting filesystem keeps the whole source tree
identical, and the target tree is unchanged except possibly at the skill's
own entry: the only paths removed or replaced are under the target tree. -/
theorem c9_mutations_preserve_source (t : Trees) (x : String) :
    (∃ tc, (activate_skill (mkFS t) ["src"] ["tgt"] x).2 = mkFS ⟨t.srcCh, tc⟩ ∧
       ∀ y, y ≠ x → childNamed tc y = childNamed t.tgtCh y) ∧
    (∃ tc, (deactivate_skill (mkFS t) ["tgt"] x).2 = mkFS ⟨t.srcCh, tc⟩ ∧
       ∀ y, y ≠ x → childNamed tc y = childNamed t.tgtCh y) := by
  have hrem : ∀ y, y ≠ x →
      childNamed (removeChildren t.tgtCh x) y = childNamed t.tgtCh y :=
    fun y hy => childNamed_removeChildren_other t.tgtCh x y hy
  have hsetrem : ∀ (n : Node), ∀ y, y ≠ x →
      childNamed (setChildren (removeChildren t.tgtCh x) x n) y
        = childNamed t.tgtCh y :=
    fun n y hy =>
      (childNamed_setChildren_other (removeChildren t.tgtCh x) x y n hy).trans
        (childNamed_removeChildren_other t.tgtCh x y hy)
  have hset : ∀ (n : Node), ∀ y, y ≠ x →
      childNamed (setChildren t.tgtCh x n) y = childNamed t.tgtCh y :=
    fun n y hy => childNamed_setChildren_other t.tgtCh x y n hy
  constructor
  · -- activate_skill
    cases hs : pathExists (mkFS t) ["src", x] with
    | false =>
      refine ⟨t.tgtCh, ?_, fun y _ => rfl⟩
      simp [activate_skill, hs]
    | true =>
      cases hcx : childNamed t.tgtCh x with
      | none =>
        have hTex : pathExists (mkFS t) ["tgt", x] = false := by
          simp [pathExists, statNode_two_missing (mkFS t) "tgt" x t.tgtCh
            (childNamed_mkFS_tgt t) hcx]
        refine ⟨setChildren t.tgtCh x (.symlink ["src", x]), ?_, hset _⟩
        simp [activate_skill, hs, hTex, osSymlink_mkFS_tgt_fresh t x ["src", x] hcx]
      | some n =>
        cases n with
        | dir ch =>
          have hnd : ∀ p, Node.dir ch ≠ Node.symlink p := fun _ h => by cases h
          have hstat0 := statNode_two_real (mkFS t) "tgt" x t.tgtCh (.dir ch)
            (childNamed_mkFS_tgt t) hcx hnd
          have hTex : pathExists (mkFS t) ["tgt", x] = true := by
            simp [pathExists, hstat0]
          have hDir : isDir (mkFS t) ["tgt", x] = true := by simp [isDir, hstat0]
          have hos := osSymlink_mkFS_tgt_fresh ⟨t.srcCh, removeChildren t.tgtCh x⟩ x
            ["src", x] (childNamed_removeChildren_self t.tgtCh x)
          refine ⟨setChildren (removeChildren t.tgtCh x) x (.symlink ["src", x]),
            ?_, hsetrem _⟩
          simp [activate_skill, hs, hTex, hDir, rmtree_mkFS_tgt_dir t x ch hcx, hos]
        | file s b =>
          have hnf : ∀ p, Node.file s b ≠ Node.symlink p := fun _ h => by cases h
          have hstat0 := statNode_two_real (mkFS t) "tgt" x t.tgtCh (.file s b)
            (childNamed_mkFS_tgt t) hcx hnf
          have hTex : pathExists (mkFS t) ["tgt", x] = true := by
            simp [pathExists, hstat0]
          have hDir : isDir (mkFS t) ["tgt", x] = false := by simp [isDir, hstat0]
          have hos := osSymlink_mkFS_tgt_fresh ⟨t.srcCh, removeChildren t.tgtCh x⟩ x
            ["src", x] (childNamed_removeChildren_self t.tgtCh x)
          refine ⟨setChildren (removeChildren t.tgtCh x) x (.symlink ["src", x]),
            ?_, hsetrem _⟩
          simp [activate_skill, hs, hTex, hDir, unlink_mkFS_tgt_file t x s b hcx, hos]
        | symlink dp =>
          have hstat := statNode_two_symlink (mkFS t) "tgt" x t.tgtCh dp
            (childNamed_mkFS_tgt t) hcx
          cases hres : resolveAux (mkFS t) 62 [] dp with
          | none =>
            have hstat0 : statNode (mkFS t) ["tgt", x] = none := by
              rw [hstat, hres]
            have hTex : pathExists (mkFS t) ["tgt", x] = false := by
              simp [pathExists, hstat0]
            refine ⟨t.tgtCh, ?_, fun y _ => rfl⟩
            simp [activate_skill, hs, hTex,
              osSymlink_mkFS_tgt_occupied t x ["src", x] _ hcx]
          | some rp =>
            cases hnode : nodeAtReal (mkFS t) rp with
            | none =>
              have hstat0 : statNode (mkFS t) ["tgt", x] = none := by
                rw [hstat, hres]; exact hnode
              have hTex : pathExists (mkFS t) ["tgt", x] = false := by
                simp [pathExists, hstat0]
              refine ⟨t.tgtCh, ?_, fun y _ => rfl⟩
              simp [activate_skill, hs, hTex,
                osSymlink_mkFS_tgt_occupied t x ["src", x] _ hcx]
            | some nn =>
              have hstat0 : statNode (mkFS t) ["tgt", x] = some nn := by
                rw [hstat, hres]; exact hnode
              have hTex : pathExists (mkFS t) ["tgt", x] = true := by
                simp [pathExists, hstat0]
              cases nn with
              | dir ch2 =>
                have hDir : isDir (mkFS t) ["tgt", x] = true := by
                  simp [isDir, hstat0]
                refine ⟨t.tgtCh, ?_, fun y _ => rfl⟩
                simp [activate_skill, hs, hTex, hDir,
                  rmtree_mkFS_tgt_symlink t x dp hcx]
              | file s2 b2 =>
                have hDir : isDir (mkFS t) ["tgt", x] = false := by
                  simp [isDir, hstat0]
                have hos := osSymlink_mkFS_tgt_fresh
                  ⟨t.srcCh, removeChildren t.tgtCh x⟩ x ["src", x]
                  (childNamed_removeChildren_self t.tgtCh x)
                refine ⟨setChildren (removeChildren t.tgtCh x) x (.symlink ["src", x]),
                  ?_, hsetrem _⟩
                simp [activate_skill, hs, hTex, hDir,
                  unlink_mkFS_tgt_symlink t x dp hcx, hos]
              | symlink d2 =>
                have hDir : isDir (mkFS t) ["tgt", x] = false := by
                  simp [isDir, hstat0]
                have hos := osSymlink_mkFS_tgt_fresh
                  ⟨t.srcCh, removeChildren t.tgtCh x⟩ x ["src", x]
                  (childNamed_removeChildren_self t.tgtCh x)
                refine ⟨setChildren (removeChildren t.tgtCh x) x (.symlink ["src", x]),
                  ?_, hsetrem _⟩
                simp [activate_skill, hs, hTex, hDir,
                  unlink_mkFS_tgt_symlink t x dp hcx, hos]
  · -- deactivate_skill
    cases hcx : childNamed t.tgtCh x with
    | none =>
      have hTex : pathExists (mkFS t) ["tgt", x] = false := by
        simp [pathExists, statNode_two_missing (mkFS t) "tgt" x t.tgtCh
          (childNamed_mkFS_tgt t) hcx]
      refine ⟨t.tgtCh, ?_, fun y _ => rfl⟩
      simp [deactivate_skill, hTex]
    | some n =>
      have hlst : lstatNode (mkFS t) ["tgt", x] = some n :=
        (lstatNode_two (mkFS t) "tgt" x t.tgtCh (childNamed_mkFS_tgt t)).trans hcx
      cases n with
      | dir ch =>
        have hnd : ∀ p, Node.dir ch ≠ Node.symlink p := fun _ h => by cases h
        have hTex : pathExists (mkFS t) ["tgt", x] = true := by
          simp [pathExists, statNode_two_real (mkFS t) "tgt" x t.tgtCh (.dir ch)
            (childNamed_mkFS_tgt t) hcx hnd]
        have hsym : isSymlink (mkFS t) ["tgt", x] = false := by
          simp [isSymlink, hlst]
        refine ⟨t.tgtCh, ?_, fun y _ => rfl⟩
        simp [deactivate_skill, hTex, hsym]
      | file s b =>
        have hnf : ∀ p, Node.file s b ≠ Node.symlink p := fun _ h => by cases h
        have hTex : pathExists (mkFS t) ["tgt", x] = true := by
          simp [pathExists, statNode_two_real (mkFS t) "tgt" x t.tgtCh (.file s b)
            (childNamed_mkFS_tgt t) hcx hnf]
        have hsym : isSymlink (mkFS t) ["tgt", x] = false := by
          simp [isSymlink, hlst]
        refine ⟨t.tgtCh, ?_, fun y _ => rfl⟩
        simp [deactivate_skill, hTex, hsym]
      | symlink dp =>
        have hsym : isSymlink (mkFS t) ["tgt", x] = true := by
          simp [isSymlink, hlst]
        have hstat := statNode_two_symlink (mkFS t) "tgt" x t.tgtCh dp
          (childNamed_mkFS_tgt t) hcx
        cases hres : resolveAux (mkFS t) 62 [] dp with
        | none =>
          have hstat0 : statNode (mkFS t) ["tgt", x] = none := by
            rw [hstat, hres]
          have hTex : pathExists (mkFS t) ["tgt", x] = false := by
            simp [pathExists, hstat0]
          refine ⟨t.tgtCh, ?_, fun y _ => rfl⟩
          simp [deactivate_skill, hTex]
        | some rp =>
          cases hnode : nodeAtReal (mkFS t) rp with
          | none =>
            have hstat0 : statNode (mkFS t) ["tgt", x] = none := by
              rw [hstat, hres]; exact hnode
            have hTex : pathExists (mkFS t) ["tgt", x] = false := by
              simp [pathExists, hstat0]
            refine ⟨t.tgtCh, ?_, fun y _ => rfl⟩
            simp [deactivate_skill, hTex]
          | some nn =>
            have hstat0 : statNode (mkFS t) ["tgt", x] = some nn := by
              rw [hstat, hres]; exact hnode
            have hTex : pathExists (mkFS t) ["tgt", x] = true := by
              simp [pathExists, hstat0]
            refine ⟨removeChildren t.tgtCh x, ?_, hrem⟩
            simp [deactivate_skill, hTex, hsym, unlink_mkFS_tgt_symlink t x dp hcx]

/-! ## Claim C10 -/

/-- C10: constructing a `SkillManager` raises `FileNotFoundError` when the
source directory does not exist; when it exists, construction creates the
target directory — including a missing parent — if absent, so the target
tree exists for every subsequent operation.  The hypothesis says each
component of the two-level target path is either absent or already a real
directory (`mkdir` raises on any other occupant). -/
theorem c10_init_checks_source_creates_target (fs : FS) (s t1 t2 : String)
    (hp : childNamed fs t1 = none ∨
          ∃ ch, childNamed fs t1 = some (.dir ch) ∧
            (childNamed ch t2 = none ∨
             ∃ ch2, childNamed ch t2 = some (.dir ch2))) :
    (pathExists fs [s] = false →
       skillManagerInit fs [s] [t1, t2] =
         .error (.fileNotFound "Source directory not found")) ∧
    (pathExists fs [s] = true →
       ∃ fs', skillManagerInit fs [s] [t1, t2] = .ok fs' ∧
         isDir fs' [t1, t2] = true) := by
  constructor
  · intro h
    simp [skillManagerInit, h]
  · intro hs
    have hinit : skillManagerInit fs [s] [t1, t2] = mkdirGo fs [] [t1, t2] := by
      simp [skillManagerInit, hs, mkdirParents]
    rcases hp with h1 | ⟨ch, hch, hp2⟩
    · -- the parent itself is missing and gets created
      have hstat1 : statNode fs [t1] = none := statNode_one_missing fs t1 h1
      have hlst1 : lstatNode fs [t1] = none := (lstatNode_one fs t1).trans h1
      have hc2 : childNamed (setChildren fs t1 (.dir [])) t1 = some (.dir []) :=
        childNamed_setChildren_self fs t1 (.dir [])
      have hstat2 : statNode (setChildren fs t1 (.dir [])) [t1, t2] = none :=
        statNode_two_missing _ t1 t2 [] hc2 rfl
      have hlst2 : lstatNode (setChildren fs t1 (.dir [])) [t1, t2] = none := by
        rw [lstatNode_two _ t1 t2 [] hc2]; rfl
      have hgo : mkdirGo fs [] [t1, t2] =
          .ok (setChildren (setChildren fs t1 (.dir []))
                t1 (.dir (setChildren [] t2 (.dir [])))) := by
        simp only [mkdirGo, List.nil_append, hstat1, hlst1, entryLoc_one,
          setAtReal_one, List.cons_append]
        simp only [mkdirGo, List.cons_append, List.nil_append, hstat2, hlst2,
          entryLoc_two _ t1 t2 [] hc2, setAtReal_two _ t1 t2 [] _ hc2]
      refine ⟨_, hinit.trans hgo, ?_⟩
      have hc3 : childNamed (setChildren (setChildren fs t1 (.dir []))
          t1 (.dir (setChildren [] t2 (.dir [])))) t1 =
          some (.dir (setChildren [] t2 (.dir []))) :=
        childNamed_setChildren_self _ t1 _
      have hcx3 : childNamed (setChildren [] t2 (.dir [])) t2 = some (.dir []) :=
        childNamed_setChildren_self [] t2 (.dir [])
      simp [isDir, statNode_two_real _ t1 t2 _ (.dir []) hc3 hcx3
        (fun _ h => by cases h)]
    · -- the parent exists as a real directory
      have hstat1 : statNode fs [t1] = some (.dir ch) :=
        statNode_one_real fs t1 (.dir ch) hch (fun _ h => by cases h)
      rcases hp2 with h2 | ⟨ch2, h2⟩
      · -- the target itself is missing and gets created
        have hstat2 : statNode fs [t1, t2] = none :=
          statNode_two_missing fs t1 t2 ch hch h2
        have hlst2 : lstatNode fs [t1, t2] = none := by
          rw [lstatNode_two fs t1 t2 ch hch]; exact h2
        have hgo : mkdirGo fs [] [t1, t2] =
            .ok (setChildren fs t1 (.dir (setChildren ch t2 (.dir [])))) := by
          simp only [mkdirGo, List.nil_append, hstat1, List.cons_append, hstat2,
            hlst2, entryLoc_two fs t1 t2 ch hch, setAtReal_two fs t1 t2 ch _ hch]
        refine ⟨_, hinit.trans hgo, ?_⟩
        have hc3 : childNamed (setChildren fs t1 (.dir (setChildren ch t2 (.dir []))))
            t1 = some (.dir (setChildren ch t2 (.dir []))) :=
          childNamed_setChildren_self fs t1 _
        have hcx3 : childNamed (setChildren ch t2 (.dir [])) t2 = some (.dir []) :=
          childNamed_setChildren_self ch t2 (.dir [])
        simp [isDir, statNode_two_real _ t1 t2 _ (.dir []) hc3 hcx3
          (fun _ h => by cases h)]
      · -- both components already exist as directories
        have hstat2 : statNode fs [t1, t2] = some (.dir ch2) :=
          statNode_two_real fs t1 t2 ch (.dir ch2) hch h2 (fun _ h => by cases h)
        have hgo : mkdirGo fs [] [t1, t2] = .ok fs := by
          simp only [mkdirGo, List.nil_append, hstat1, List.cons_append, hstat2]
        exact ⟨fs, hinit.trans hgo, by simp [isDir, hstat2]⟩

/-- Witness for `c10_init_checks_source_creates_target`: both the missing
source error and the created target directory, at concrete states. -/
theorem c10_init_checks_source_creates_target_witness :
    (skillManagerInit [] ["source"] ["T1", "T2"] =
       .error (.fileNotFound "Source directory not found")) ∧
    ∃ fs', skillManagerInit c10fs ["source"] ["T1", "T2"] = .ok fs' ∧
      isDir fs' ["T1", "T2"] = true :=
  ⟨(c10_init_checks_source_creates_target [] "source" "T1" "T2" (Or.inl rfl)).1 rfl,
   (c10_init_checks_source_creates_target c10fs "source" "T1" "T2" (Or.inl rfl)).2 rfl⟩

end SkillMgr
